import Mathlib

/-
Verification of the AI assistant proposal/approval subsystem of the Surmai
trip-planning application, shallowly embedded from
`backend/routes/trip_assistant.go`.

The embedding covers the pieces the claims are about:
  * the proposal data model and the process-wide proposal store
    (`assistantProposal`, `storeAssistantProposal`, `popAssistantProposal`,
    `getAssistantProposal`),
  * the nine mutation handlers dispatched by `applyAssistantProposal`
    (create/update/delete over activities, lodgings, transportations),
  * the decision endpoint `AssistantProposalDecision`,
  * the streaming tool-call accumulator `functionCallBuffer`
    (`handleOutputItemAdded`, `handleArgumentsDelta`, `finalizeProposal`),
  * the SSE relay loop of `streamResponsesToClient`.

Modelling conventions:
  * Go `map[string]interface{}` values decoded from JSON are modelled by the
    inductive `JsonVal`; argument maps are association lists.
  * The PocketBase record store is modelled by `AppState`: three collections
    of records, each record an id plus an association list of fields.  The
    three collections (`activities`, `lodgings`, `transportations`) always
    exist (they are created by the app migrations), so
    `FindCollectionByNameOrId` always succeeds and `app.Save`/`app.Delete`
    are total; a fresh record id for a create is passed in explicitly.
  * `time.Time` is modelled by `Nat` (seconds); `proposalTTL` is 120.
  * Go's `json.Unmarshal` into `map[string]interface{}` is an external
    library call; it is modelled by an explicit `decode` parameter
    (`String → Option Args`) threaded to the functions that call it.
  * `strings.ToLower` and `strings.TrimSpace` are modelled for the ASCII
    range by `toLowerGo` and `trimGo` (the decision strings and JSON
    whitespace the code compares are ASCII).
-/

namespace Surmai

/-- A JSON value as decoded by Go's `encoding/json` into `interface{}`:
`null`, booleans, numbers (modelled as rationals), strings, arrays and
objects (association lists, standing in for Go's unordered maps). -/
inductive JsonVal where
  | null : JsonVal
  | bool (b : Bool) : JsonVal
  | num (q : ℚ) : JsonVal
  | str (s : String) : JsonVal
  | arr (elems : List JsonVal) : JsonVal
  | obj (fields : List (String × JsonVal)) : JsonVal

/-- An argument map, the Go `map[string]interface{}` decoded from the
model's function-call JSON. -/
abbrev Args := List (String × JsonVal)

/-- Association-list lookup; `none` means the key is absent from the map
(in Go, the `v, ok := m[k]` form with `ok = false`). -/
def lookupArg : Args → String → Option JsonVal
  | [], _ => none
  | (k, v) :: rest, key => if k = key then some v else lookupArg rest key

/-- ASCII model of the character mapping done by Go's `strings.ToLower`. -/
def lowerChar (c : Char) : Char :=
  if 'A' ≤ c ∧ c ≤ 'Z' then Char.ofNat (c.toNat + 32) else c

/-- ASCII model of Go's `strings.ToLower`. -/
def toLowerGo (s : String) : String := ⟨s.data.map lowerChar⟩

/-- Whitespace test used by the `trimGo` model of `strings.TrimSpace`. -/
def isWsChar (c : Char) : Bool :=
  c = ' ' ∨ c = '\t' ∨ c = '\n' ∨ c = '\r'

/-- ASCII model of Go's `strings.TrimSpace`: drop leading and trailing
whitespace characters. -/
def trimGo (s : String) : String :=
  ⟨(((s.data.dropWhile isWsChar).reverse).dropWhile isWsChar).reverse⟩

/-- Embedding of `stringValue` (trip_assistant.go): `nil` and JSON null
yield `""`, strings are returned unchanged, anything else is rendered via
`fmt.Sprintf` with the `%v` verb (approximated here; the code only branches
on whether the result is empty, which the approximation preserves for the
scalar cases). -/
def stringValue : Option JsonVal → String
  | none => ""
  | some .null => ""
  | some (.str s) => s
  | some (.bool b) => if b then "true" else "false"
  | some (.num q) => toString q
  | some (.arr _) => "[...]"
  | some (.obj _) => "map[...]"

/-- Digit accumulator for `parseGoFloat`. -/
def digitsVal (l : List Char) : ℚ :=
  l.foldl (fun n c => n * 10 + (c.toNat - 48)) 0

/-- Model of `strconv.ParseFloat` for plain decimal literals (optional
sign, integer part, optional fractional part); any other syntax yields 0,
as `floatValue` discards the parse error and uses the zero result. -/
def parseGoFloat (s : String) : ℚ :=
  let signed : ℚ × List Char :=
    match s.data with
    | '-' :: rest => (-1, rest)
    | '+' :: rest => (1, rest)
    | cs => (1, cs)
  let intPart := signed.2.takeWhile Char.isDigit
  let rest := signed.2.dropWhile Char.isDigit
  match rest with
  | [] => if intPart.isEmpty then 0 else signed.1 * digitsVal intPart
  | '.' :: frac =>
      if frac.all Char.isDigit ∧ ¬(intPart.isEmpty ∧ frac.isEmpty) then
        signed.1 * (digitsVal intPart + digitsVal frac / (10 : ℚ) ^ frac.length)
      else 0
  | _ => 0

/-- Embedding of `floatValue` (trip_assistant.go): JSON numbers are used
directly, strings go through `strconv.ParseFloat` (errors yield 0), and
every other value yields 0. -/
def floatValue : Option JsonVal → ℚ
  | some (.num q) => q
  | some (.str s) => parseGoFloat s
  | _ => 0

/-- Embedding of `mapValue` (trip_assistant.go): a JSON object yields its
fields, anything else yields the nil map (empty). -/
def mapValue : Option JsonVal → List (String × JsonVal)
  | some (.obj m) => m
  | _ => []

/-- A PocketBase record: an id plus its fields.  The `trip` relation is an
ordinary field. -/
structure StoredRecord where
  id : String
  fields : List (String × JsonVal)

/-- Set a key in an association list, replacing an existing binding or
appending a new one. -/
def setAssoc : List (String × JsonVal) → String → JsonVal → List (String × JsonVal)
  | [], k, v => [(k, v)]
  | (k', v') :: rest, k, v =>
      if k' = k then (k, v) :: rest else (k', v') :: setAssoc rest k v

/-- Embedding of `record.Set`. -/
def setField (r : StoredRecord) (k : String) (v : JsonVal) : StoredRecord :=
  { r with fields := setAssoc r.fields k v }

/-- Embedding of `record.GetString`: the field value rendered as a string,
`""` when absent. -/
def getString (r : StoredRecord) (k : String) : String :=
  stringValue (lookupArg r.fields k)

/-- First record with the given id, as `app.FindRecordById` on one
collection. -/
def findById : List StoredRecord → String → Option StoredRecord
  | [], _ => none
  | r :: rest, i => if r.id = i then some r else findById rest i

/-- Replace the first record with the given id, as `app.Save` on a record
fetched from the store. -/
def replaceById : List StoredRecord → String → StoredRecord → List StoredRecord
  | [], _, _ => []
  | r :: rest, i, r' => if r.id = i then r' :: rest else r :: replaceById rest i r'

/-- Remove the first record with the given id, as `app.Delete`. -/
def removeById : List StoredRecord → String → List StoredRecord
  | [], _ => []
  | r :: rest, i => if r.id = i then rest else r :: removeById rest i

/-- The record store visible to the assistant routes: the three collections
the nine mutation handlers touch. -/
structure AppState where
  activities : List StoredRecord
  lodgings : List StoredRecord
  transportations : List StoredRecord

/-- The records of a collection by name (empty for unknown names). -/
def collectionOf (app : AppState) (c : String) : List StoredRecord :=
  if c = "activities" then app.activities
  else if c = "lodgings" then app.lodgings
  else if c = "transportations" then app.transportations
  else []

/-- Tool name constant from trip_assistant.go. -/
def assistantToolCreateActivity : String := "create_activity"

/-- Tool name constant from trip_assistant.go. -/
def assistantToolCreateLodging : String := "create_lodging"

/-- Tool name constant from trip_assistant.go. -/
def assistantToolCreateTransportation : String := "create_transportation"

/-- Tool name constant from trip_assistant.go. -/
def assistantToolUpdateActivity : String := "update_activity"

/-- Tool name constant from trip_assistant.go. -/
def assistantToolUpdateLodging : String := "update_lodging"

/-- Tool name constant from trip_assistant.go. -/
def assistantToolUpdateTransportation : String := "update_transportation"

/-- Tool name constant from trip_assistant.go. -/
def assistantToolDeleteActivity : String := "delete_activity"

/-- Tool name constant from trip_assistant.go. -/
def assistantToolDeleteLodging : String := "delete_lodging"

/-- Tool name constant from trip_assistant.go. -/
def assistantToolDeleteTransportation : String := "delete_transportation"

/-- `proposalTTL = 2 * time.Minute`, in seconds. -/
def proposalTTL : Nat := 120

/-- Embedding of `assistantProposal` (times in seconds). -/
structure AssistantProposal where
  id : String
  tripId : String
  tool : String
  arguments : Args
  expiresAt : Nat
  createdAt : Nat

/-- Embedding of `(*assistantProposal).expired()`:
`time.Now().UTC().After(p.ExpiresAt)`, i.e. strictly after expiry. -/
def AssistantProposal.expired (p : AssistantProposal) (now : Nat) : Bool :=
  p.expiresAt < now

/-- The process-wide proposal store: proposal id to proposal. -/
abbrev PropStore := List (String × AssistantProposal)

/-- Embedding of `getAssistantProposal`: read-only lookup. -/
def getAssistantProposal : PropStore → String → Option AssistantProposal
  | [], _ => none
  | (k, p) :: rest, i => if k = i then some p else getAssistantProposal rest i

/-- Removal of a key from the store, the `delete(proposalStore.items, id)`
step of `popAssistantProposal`. -/
def eraseProposal : PropStore → String → PropStore
  | [], _ => []
  | (k, p) :: rest, i =>
      if k = i then eraseProposal rest i else (k, p) :: eraseProposal rest i

/-- Embedding of `storeAssistantProposal`: map assignment by proposal id. -/
def storeAssistantProposal (store : PropStore) (p : AssistantProposal) : PropStore :=
  (p.id, p) :: eraseProposal store p.id

/-- Embedding of `sanitizePlaceMetadata`. -/
def sanitizePlaceMetadata (raw : List (String × JsonVal)) : List (String × JsonVal) :=
  let place : List (String × JsonVal) := []
  let place := if stringValue (lookupArg raw "name") ≠ "" then
    place ++ [("name", .str (stringValue (lookupArg raw "name")))] else place
  let place := if stringValue (lookupArg raw "country") ≠ "" then
    place ++ [("countryName", .str (stringValue (lookupArg raw "country")))] else place
  let place := if stringValue (lookupArg raw "state") ≠ "" then
    place ++ [("stateName", .str (stringValue (lookupArg raw "state")))] else place
  let place := if stringValue (lookupArg raw "latitude") ≠ "" then
    place ++ [("latitude", .str (stringValue (lookupArg raw "latitude")))] else place
  let place := if stringValue (lookupArg raw "longitude") ≠ "" then
    place ++ [("longitude", .str (stringValue (lookupArg raw "longitude")))] else place
  let place := if stringValue (lookupArg raw "timezone") ≠ "" then
    place ++ [("timezone", .str (stringValue (lookupArg raw "timezone")))] else place
  let place := if stringValue (lookupArg raw "category") ≠ "" then
    place ++ [("category", .str (stringValue (lookupArg raw "category")))] else place
  let place := if stringValue (lookupArg raw "place_id") ≠ "" then
    place ++ [("id", .str (stringValue (lookupArg raw "place_id")))] else place
  place

/-- Embedding of `buildActivityMetadata`. -/
def buildActivityMetadata (args : Args) : List (String × JsonVal) :=
  let dest := mapValue (lookupArg args "destination")
  if dest.length > 0 then [("place", .obj (sanitizePlaceMetadata dest))] else []

/-- Embedding of `ensureTripRecord`: fetch a record by id from the named
collection and check it belongs to the requesting trip.  A missing id, a
record that does not exist, or a foreign record are errors and no mutation
happens. -/
def ensureTripRecord (app : AppState) (collection recordID tripID : String) :
    Except String StoredRecord :=
  if recordID = "" then .error "missing record id"
  else
    match findById (collectionOf app collection) recordID with
    | none => .error "record not found"
    | some record =>
        if getString record "trip" ≠ tripID then
          .error "record does not belong to this trip"
        else .ok record

/-- Embedding of `applyCostUpdate`: only acts when a cost key is present;
a positive value with a currency sets the cost object, anything else
clears the field. -/
def applyCostUpdate (record : StoredRecord) (args : Args) : StoredRecord :=
  let hasValue := (lookupArg args "cost_value").isSome
  let hasCurrency := (lookupArg args "cost_currency").isSome
  if ¬hasValue ∧ ¬hasCurrency then record
  else
    let value := floatValue (lookupArg args "cost_value")
    let currency := stringValue (lookupArg args "cost_currency")
    if value > 0 ∧ currency ≠ "" then
      setField record "cost" (.obj [("value", .num value), ("currency", .str currency)])
    else setField record "cost" .null

/-- Embedding of `saveActivityProposal`: create one activity record scoped
to the trip.  The fresh record id assigned by the store on save is passed
in as `freshId`. -/
def saveActivityProposal (app : AppState) (freshId tripID : String) (args : Args) :
    Except String (String × AppState) :=
  let record := StoredRecord.mk freshId []
  let record := setField record "trip" (.str tripID)
  let record := setField record "name" (.str (stringValue (lookupArg args "name")))
  let record := setField record "description" (.str (stringValue (lookupArg args "description")))
  let record := setField record "address" (.str (stringValue (lookupArg args "address")))
  let record := setField record "notes" (.str (stringValue (lookupArg args "notes")))
  let record := if stringValue (lookupArg args "start_time") ≠ "" then
    setField record "startDate" (.str (stringValue (lookupArg args "start_time"))) else record
  let record := if stringValue (lookupArg args "end_time") ≠ "" then
    setField record "endDate" (.str (stringValue (lookupArg args "end_time"))) else record
  let costValue := floatValue (lookupArg args "cost_value")
  let currency := stringValue (lookupArg args "cost_currency")
  let record := if costValue > 0 ∧ currency ≠ "" then
    setField record "cost" (.obj [("value", .num costValue), ("currency", .str currency)])
    else record
  let metadata := buildActivityMetadata args
  let record := if metadata.length > 0 then setField record "metadata" (.obj metadata) else record
  .ok ("Added activity \"" ++ stringValue (lookupArg args "name") ++ "\" on "
        ++ stringValue (lookupArg args "start_time") ++ ".",
      { app with activities := app.activities ++ [record] })

/-- The record-field updates of `updateActivityProposal`: the sequence of
conditional `record.Set` statements followed by `applyCostUpdate`. -/
def updatedActivityRecord (record : StoredRecord) (args : Args) : StoredRecord :=
  let record := if stringValue (lookupArg args "name") ≠ "" then
    setField record "name" (.str (stringValue (lookupArg args "name"))) else record
  let record := if stringValue (lookupArg args "description") ≠ "" then
    setField record "description" (.str (stringValue (lookupArg args "description"))) else record
  let record := if stringValue (lookupArg args "address") ≠ "" then
    setField record "address" (.str (stringValue (lookupArg args "address"))) else record
  let record := if stringValue (lookupArg args "notes") ≠ "" then
    setField record "notes" (.str (stringValue (lookupArg args "notes"))) else record
  let record := if stringValue (lookupArg args "start_time") ≠ "" then
    setField record "startDate" (.str (stringValue (lookupArg args "start_time"))) else record
  let record := if stringValue (lookupArg args "end_time") ≠ "" then
    setField record "endDate" (.str (stringValue (lookupArg args "end_time"))) else record
  let record := if (buildActivityMetadata args).length > 0 then
    setField record "metadata" (.obj (buildActivityMetadata args)) else record
  applyCostUpdate record args

/-- Embedding of `updateActivityProposal`. -/
def updateActivityProposal (app : AppState) (tripID : String) (args : Args) :
    Except String (String × AppState) :=
  match ensureTripRecord app "activities" (stringValue (lookupArg args "record_id")) tripID with
  | .error e => .error e
  | .ok record =>
    let record := updatedActivityRecord record args
    .ok ("Updated activity \"" ++ getString record "name" ++ "\".",
        { app with activities := replaceById app.activities record.id record })

/-- Embedding of `deleteActivityProposal`. -/
def deleteActivityProposal (app : AppState) (tripID : String) (args : Args) :
    Except String (String × AppState) :=
  match ensureTripRecord app "activities" (stringValue (lookupArg args "record_id")) tripID with
  | .error e => .error e
  | .ok record =>
    .ok ("Removed activity \"" ++ getString record "name" ++ "\".",
        { app with activities := removeById app.activities record.id })

/-- Embedding of `saveLodgingProposal`. -/
def saveLodgingProposal (app : AppState) (freshId tripID : String) (args : Args) :
    Except String (String × AppState) :=
  let record := StoredRecord.mk freshId []
  let record := setField record "trip" (.str tripID)
  let record := setField record "name" (.str (stringValue (lookupArg args "name")))
  let record := setField record "type" (.str (stringValue (lookupArg args "type")))
  let record := setField record "address" (.str (stringValue (lookupArg args "address")))
  let record := setField record "confirmationCode" (.str (stringValue (lookupArg args "confirmation")))
  let record := if stringValue (lookupArg args "start_time") ≠ "" then
    setField record "startDate" (.str (stringValue (lookupArg args "start_time"))) else record
  let record := if stringValue (lookupArg args "end_time") ≠ "" then
    setField record "endDate" (.str (stringValue (lookupArg args "end_time"))) else record
  .ok ("Added lodging \"" ++ stringValue (lookupArg args "name") ++ "\" for "
        ++ stringValue (lookupArg args "start_time") ++ " to "
        ++ stringValue (lookupArg args "end_time") ++ ".",
      { app with lodgings := app.lodgings ++ [record] })

/-- The record-field updates of `updateLodgingProposal`: its sequence of
conditional `record.Set` statements. -/
def updatedLodgingRecord (record : StoredRecord) (args : Args) : StoredRecord :=
  let record := if stringValue (lookupArg args "name") ≠ "" then
    setField record "name" (.str (stringValue (lookupArg args "name"))) else record
  let record := if stringValue (lookupArg args "type") ≠ "" then
    setField record "type" (.str (stringValue (lookupArg args "type"))) else record
  let record := if stringValue (lookupArg args "address") ≠ "" then
    setField record "address" (.str (stringValue (lookupArg args "address"))) else record
  let record := if stringValue (lookupArg args "start_time") ≠ "" then
    setField record "startDate" (.str (stringValue (lookupArg args "start_time"))) else record
  let record := if stringValue (lookupArg args "end_time") ≠ "" then
    setField record "endDate" (.str (stringValue (lookupArg args "end_time"))) else record
  let record := if stringValue (lookupArg args "confirmation") ≠ "" then
    setField record "confirmationCode" (.str (stringValue (lookupArg args "confirmation"))) else record
  if stringValue (lookupArg args "notes") ≠ "" then
    setField record "notes" (.str (stringValue (lookupArg args "notes"))) else record

/-- Embedding of `updateLodgingProposal`. -/
def updateLodgingProposal (app : AppState) (tripID : String) (args : Args) :
    Except String (String × AppState) :=
  match ensureTripRecord app "lodgings" (stringValue (lookupArg args "record_id")) tripID with
  | .error e => .error e
  | .ok record =>
    let record := updatedLodgingRecord record args
    .ok ("Updated lodging \"" ++ getString record "name" ++ "\".",
        { app with lodgings := replaceById app.lodgings record.id record })

/-- Embedding of `deleteLodgingProposal`. -/
def deleteLodgingProposal (app : AppState) (tripID : String) (args : Args) :
    Except String (String × AppState) :=
  match ensureTripRecord app "lodgings" (stringValue (lookupArg args "record_id")) tripID with
  | .error e => .error e
  | .ok record =>
    .ok ("Removed lodging \"" ++ getString record "name" ++ "\".",
        { app with lodgings := removeById app.lodgings record.id })

/-- Embedding of `saveTransportationProposal`. -/
def saveTransportationProposal (app : AppState) (freshId tripID : String) (args : Args) :
    Except String (String × AppState) :=
  let record := StoredRecord.mk freshId []
  let record := setField record "trip" (.str tripID)
  let record := setField record "type" (.str (stringValue (lookupArg args "type")))
  let record := setField record "provider" (.str (stringValue (lookupArg args "provider")))
  let record := setField record "origin" (.str (stringValue (lookupArg args "origin")))
  let record := setField record "destination" (.str (stringValue (lookupArg args "destination")))
  let record := setField record "notes" (.str (stringValue (lookupArg args "notes")))
  let record := if stringValue (lookupArg args "departure_time") ≠ "" then
    setField record "departureTime" (.str (stringValue (lookupArg args "departure_time"))) else record
  let record := if stringValue (lookupArg args "arrival_time") ≠ "" then
    setField record "arrivalTime" (.str (stringValue (lookupArg args "arrival_time"))) else record
  .ok ("Added " ++ stringValue (lookupArg args "type") ++ " from "
        ++ stringValue (lookupArg args "origin") ++ " to "
        ++ stringValue (lookupArg args "destination") ++ " departing "
        ++ stringValue (lookupArg args "departure_time") ++ ".",
      { app with transportations := app.transportations ++ [record] })

/-- The record-field updates of `updateTransportationProposal`: its
sequence of conditional `record.Set` statements. -/
def updatedTransportationRecord (record : StoredRecord) (args : Args) : StoredRecord :=
  let record := if stringValue (lookupArg args "type") ≠ "" then
    setField record "type" (.str (stringValue (lookupArg args "type"))) else record
  let record := if stringValue (lookupArg args "provider") ≠ "" then
    setField record "provider" (.str (stringValue (lookupArg args "provider"))) else record
  let record := if stringValue (lookupArg args "origin") ≠ "" then
    setField record "origin" (.str (stringValue (lookupArg args "origin"))) else record
  let record := if stringValue (lookupArg args "destination") ≠ "" then
    setField record "destination" (.str (stringValue (lookupArg args "destination"))) else record
  let record := if stringValue (lookupArg args "departure_time") ≠ "" then
    setField record "departureTime" (.str (stringValue (lookupArg args "departure_time"))) else record
  let record := if stringValue (lookupArg args "arrival_time") ≠ "" then
    setField record "arrivalTime" (.str (stringValue (lookupArg args "arrival_time"))) else record
  if stringValue (lookupArg args "notes") ≠ "" then
    setField record "notes" (.str (stringValue (lookupArg args "notes"))) else record

/-- Embedding of `updateTransportationProposal`. -/
def updateTransportationProposal (app : AppState) (tripID : String) (args : Args) :
    Except String (String × AppState) :=
  match ensureTripRecord app "transportations" (stringValue (lookupArg args "record_id")) tripID with
  | .error e => .error e
  | .ok record =>
    let record := updatedTransportationRecord record args
    .ok ("Updated " ++ getString record "type" ++ " on " ++ getString record "departureTime" ++ ".",
        { app with transportations := replaceById app.transportations record.id record })

/-- Embedding of `deleteTransportationProposal`. -/
def deleteTransportationProposal (app : AppState) (tripID : String) (args : Args) :
    Except String (String × AppState) :=
  match ensureTripRecord app "transportations" (stringValue (lookupArg args "record_id")) tripID with
  | .error e => .error e
  | .ok record =>
    .ok ("Removed " ++ (getString record "type" ++ " from " ++ getString record "origin"
          ++ " to " ++ getString record "destination") ++ ".",
        { app with transportations := removeById app.transportations record.id })

/-- Embedding of `applyAssistantProposal`: dispatch on the proposal's tool
name (a `switch` in the source, an equivalent `if` chain here).  Unknown
tools are an error and no mutation happens. -/
def applyAssistantProposal (app : AppState) (tripId freshId : String)
    (proposal : AssistantProposal) : Except String (String × AppState) :=
  if proposal.tool = assistantToolCreateActivity then
    saveActivityProposal app freshId tripId proposal.arguments
  else if proposal.tool = assistantToolUpdateActivity then
    updateActivityProposal app tripId proposal.arguments
  else if proposal.tool = assistantToolDeleteActivity then
    deleteActivityProposal app tripId proposal.arguments
  else if proposal.tool = assistantToolCreateLodging then
    saveLodgingProposal app freshId tripId proposal.arguments
  else if proposal.tool = assistantToolUpdateLodging then
    updateLodgingProposal app tripId proposal.arguments
  else if proposal.tool = assistantToolDeleteLodging then
    deleteLodgingProposal app tripId proposal.arguments
  else if proposal.tool = assistantToolCreateTransportation then
    saveTransportationProposal app freshId tripId proposal.arguments
  else if proposal.tool = assistantToolUpdateTransportation then
    updateTransportationProposal app tripId proposal.arguments
  else if proposal.tool = assistantToolDeleteTransportation then
    deleteTransportationProposal app tripId proposal.arguments
  else .error "unsupported proposal type"

/-- The JSON responses `AssistantProposalDecision` can send, tagged by
their HTTP status: 400 Bad Request, 410 Gone, 403 Forbidden, 500 Internal
Server Error, 200 OK (`{status, message}`). -/
inductive DecisionResponse where
  | badRequest (error : String) : DecisionResponse
  | gone (error : String) : DecisionResponse
  | forbidden (error : String) : DecisionResponse
  | internalError (error : String) : DecisionResponse
  | ok (status message : String) : DecisionResponse
deriving DecidableEq, Repr

/-- Whether a response is the 410 Gone rejection. -/
def DecisionResponse.isGone : DecisionResponse → Bool
  | .gone _ => true
  | _ => false

/-- The mutable server state the decision endpoint touches: the proposal
store and the record store. -/
structure ServerState where
  proposals : PropStore
  app : AppState

/-- Embedding of `AssistantProposalDecision` from the point where the
proposal id is read (request-body and trip-context decoding are transport
concerns; the authenticated trip id and the decoded decision string are
parameters).  `now` is the current time, `freshId` the record id a create
would be assigned.  Mirrors the source order: empty id, store lookup
(Gone), trip ownership (Forbidden), expiry (Gone, with removal), then the
`switch` on `strings.ToLower(decision)`. -/
def AssistantProposalDecision (st : ServerState) (now : Nat)
    (freshId tripId proposalId decision : String) :
    DecisionResponse × ServerState :=
  if proposalId = "" then (.badRequest "proposal id missing", st)
  else
    match getAssistantProposal st.proposals proposalId with
    | none => (.gone "proposal expired", st)
    | some proposal =>
      if proposal.tripId ≠ tripId then
        (.forbidden "proposal does not belong to this trip", st)
      else if proposal.expired now then
        (.gone "proposal timed out",
          { st with proposals := eraseProposal st.proposals proposalId })
      else if toLowerGo decision = "approve" then
        match applyAssistantProposal st.app tripId freshId proposal with
        | .error e => (.internalError e, st)
        | .ok (message, app2) =>
            (.ok "approved" message,
              ⟨eraseProposal st.proposals proposalId, app2⟩)
      else if toLowerGo decision = "decline" then
        (.ok "declined" "Okay, I will skip that change.",
          { st with proposals := eraseProposal st.proposals proposalId })
      else if toLowerGo decision = "timeout" then
        (.ok "timeout" "The request expired. Ask again if you\x27d like me to re-create it.",
          { st with proposals := eraseProposal st.proposals proposalId })
      else (.badRequest "decision must be approve, decline, or timeout", st)

/-- Embedding of `summarizeProposal`. -/
def summarizeProposal (tool : String) (args : Args) : String :=
  if tool = assistantToolCreateActivity then
    "I\x27ll add an activity \"" ++ stringValue (lookupArg args "name") ++ "\" starting "
      ++ stringValue (lookupArg args "start_time") ++ "."
  else if tool = assistantToolUpdateActivity then
    "I\x27ll update activity " ++ stringValue (lookupArg args "record_id") ++ "."
  else if tool = assistantToolDeleteActivity then
    "I\x27ll delete activity " ++ stringValue (lookupArg args "record_id") ++ "."
  else if tool = assistantToolCreateLodging then
    "I\x27ll add lodging \"" ++ stringValue (lookupArg args "name") ++ "\" from "
      ++ stringValue (lookupArg args "start_time") ++ " to "
      ++ stringValue (lookupArg args "end_time") ++ "."
  else if tool = assistantToolUpdateLodging then
    "I\x27ll update lodging " ++ stringValue (lookupArg args "record_id") ++ "."
  else if tool = assistantToolDeleteLodging then
    "I\x27ll delete lodging " ++ stringValue (lookupArg args "record_id") ++ "."
  else if tool = assistantToolCreateTransportation then
    "I\x27ll add " ++ stringValue (lookupArg args "type") ++ " from "
      ++ stringValue (lookupArg args "origin") ++ " to "
      ++ stringValue (lookupArg args "destination") ++ " departing "
      ++ stringValue (lookupArg args "departure_time") ++ "."
  else if tool = assistantToolUpdateTransportation then
    "I\x27ll update transportation " ++ stringValue (lookupArg args "record_id") ++ "."
  else if tool = assistantToolDeleteTransportation then
    "I\x27ll delete transportation " ++ stringValue (lookupArg args "record_id") ++ "."
  else "I have a change ready to apply."

/-- Embedding of `functionCallBuffer`: the per-stream accumulator for a
streamed function call (the unused `proposal` pointer field of the Go
struct is omitted).  `builder` is the accumulated arguments text. -/
structure FunctionCallBuffer where
  active : Bool
  name : String
  itemID : String
  builder : String
deriving DecidableEq, Repr

/-- The zero-valued buffer `&functionCallBuffer{}` a stream starts with. -/
def emptyBuffer : FunctionCallBuffer := ⟨false, "", "", ""⟩

/-- Embedding of `functionCallBuffer.handleOutputItemAdded`: a
`function_call` output item starts accumulation, recording the call name
and item id and resetting the text buffer; other item types are ignored. -/
def handleOutputItemAdded (b : FunctionCallBuffer) (itemType name id : String) :
    FunctionCallBuffer :=
  if itemType ≠ "function_call" then b
  else { active := true, name := name, itemID := id, builder := "" }

/-- Embedding of `functionCallBuffer.handleArgumentsDelta`: while
accumulating, append the delta text unless the event carries a different
non-empty item id; empty deltas are skipped.  `itemId` and `delta` are the
`item_id` and `delta` fields of the event (empty when absent). -/
def handleArgumentsDelta (b : FunctionCallBuffer) (itemId delta : String) :
    FunctionCallBuffer :=
  if ¬b.active then b
  else if itemId ≠ "" ∧ itemId ≠ b.itemID then b
  else if delta ≠ "" then { b with builder := b.builder ++ delta } else b

/-- The `proposal` object of the SSE proposal event
(`{id, tool, arguments, summary, expiresAt}`). -/
structure ProposalPayload where
  id : String
  tool : String
  arguments : Args
  summary : String
  expiresAt : Nat

/-- Embedding of `functionCallBuffer.finalizeProposal`.  `decode` stands
for `json.Unmarshal` into `map[string]interface{}` (`none` on a parse
error), `eventItemId` is the `item_id` of the done event, `freshId` the
`uuid.NewString()` value, `now` the current time.  On success the proposal
is stored, the buffer is reset, and the SSE payload is returned; on any
failure nothing changes. -/
def finalizeProposal (decode : String → Option Args) (b : FunctionCallBuffer)
    (eventItemId tripId freshId : String) (now : Nat) (store : PropStore) :
    Option (ProposalPayload × FunctionCallBuffer × PropStore) :=
  if ¬b.active then none
  else if eventItemId ≠ "" ∧ eventItemId ≠ b.itemID then none
  else
    let argsJSON := trimGo b.builder
    if argsJSON = "" then none
    else
      match decode argsJSON with
      | none => none
      | some args =>
          let proposal : AssistantProposal :=
            { id := freshId, tripId := tripId, tool := b.name, arguments := args,
              expiresAt := now + proposalTTL, createdAt := now }
          some ({ id := freshId, tool := b.name, arguments := args,
                  summary := summarizeProposal b.name args,
                  expiresAt := now + proposalTTL },
                { b with active := false, builder := "", itemID := "" },
                storeAssistantProposal store proposal)

/-- A provider SSE event, as classified by the `switch eventType` of
`streamResponsesToClient`.  String fields are the extracted event fields
(empty when absent); `doneSignal` is the `data: [DONE]` line that breaks
the loop; `other` covers unparseable lines and unknown event types, which
are skipped. -/
inductive ProviderEvent where
  | outputItemAdded (itemType name id : String) : ProviderEvent
  | argsDelta (itemId delta : String) : ProviderEvent
  | argsDone (itemId : String) : ProviderEvent
  | textDelta (text : String) : ProviderEvent
  | completed : ProviderEvent
  | errorEvent (message : String) : ProviderEvent
  | doneSignal : ProviderEvent
  | other : ProviderEvent

/-- A normalized SSE event sent to the client. -/
inductive ClientEvent where
  | delta (text : String) : ClientEvent
  | proposal (p : ProposalPayload) : ClientEvent
  | done : ClientEvent
  | error (message : String) : ClientEvent

/-- Whether a client event is the proposal event. -/
def isProposalEvent : ClientEvent → Bool
  | .proposal _ => true
  | _ => false

/-- Whether a client event is the done event. -/
def isDoneEvent : ClientEvent → Bool
  | .done => true
  | _ => false

/-- Whether a client event is terminal in the sense of the spec: a
`proposal`, `done` or `error` event (everything but a text delta). -/
def isTerminalEvent : ClientEvent → Bool
  | .delta _ => false
  | _ => true

/-- Number of terminal events in a client event sequence. -/
def terminalCount (out : List ClientEvent) : Nat :=
  out.countP fun e => isTerminalEvent e

/-- Embedding of the event loop of `streamResponsesToClient`, from the
established provider stream onward: the buffer, the `proposalIssued` and
`completed` flags and the proposal store are threaded through the events.
Returns the client events written and the resulting proposal store.
Mirrors the source: a finalized proposal is emitted and the function
returns at once; `response.completed` emits `done` and keeps reading;
`response.error` emits `error` and keeps reading; after the loop a
trailing `done` is sent unless a `done` or proposal was already sent. -/
def relayGo (decode : String → Option Args) (tripId freshId : String) (now : Nat) :
    FunctionCallBuffer → Bool → Bool → PropStore → List ProviderEvent →
    List ClientEvent × PropStore
  | _, proposalIssued, completed, store, [] =>
      ((if ¬completed ∧ ¬proposalIssued then [.done] else []), store)
  | b, proposalIssued, completed, store, ev :: rest =>
      match ev with
      | .doneSignal =>
          ((if ¬completed ∧ ¬proposalIssued then [.done] else []), store)
      | .outputItemAdded itemType name id =>
          relayGo decode tripId freshId now
            (handleOutputItemAdded b itemType name id) proposalIssued completed store rest
      | .argsDelta itemId delta =>
          relayGo decode tripId freshId now
            (handleArgumentsDelta b itemId delta) proposalIssued completed store rest
      | .argsDone itemId =>
          if proposalIssued then
            relayGo decode tripId freshId now b proposalIssued completed store rest
          else
            match finalizeProposal decode b itemId tripId freshId now store with
            | some (payload, _, store') => ([.proposal payload], store')
            | none =>
                relayGo decode tripId freshId now b proposalIssued completed store rest
      | .textDelta text =>
          if text = "" then
            relayGo decode tripId freshId now b proposalIssued completed store rest
          else
            let r := relayGo decode tripId freshId now b proposalIssued completed store rest
            (.delta text :: r.1, r.2)
      | .completed =>
          let r := relayGo decode tripId freshId now b proposalIssued true store rest
          (.done :: r.1, r.2)
      | .errorEvent message =>
          let m := if message = "" then "assistant request failed" else message
          let r := relayGo decode tripId freshId now b proposalIssued completed store rest
          (.error m :: r.1, r.2)
      | .other =>
          relayGo decode tripId freshId now b proposalIssued completed store rest

/-- One full relayed assistant turn: `streamResponsesToClient`'s event loop
started on the zero buffer with neither flag set. -/
def relayRun (decode : String → Option Args) (tripId freshId : String) (now : Nat)
    (store : PropStore) (events : List ProviderEvent) : List ClientEvent × PropStore :=
  relayGo decode tripId freshId now emptyBuffer false false store events

/-- The three kinds of record-store mutation a tool can request. -/
inductive MutKind where
  | create : MutKind
  | update : MutKind
  | delete : MutKind
deriving DecidableEq, Repr

/-- The mutation kind and target collection of each of the nine supported
tools; `none` for unknown tools. -/
def toolSpec (tool : String) : Option (MutKind × String) :=
  if tool = assistantToolCreateActivity then some (.create, "activities")
  else if tool = assistantToolUpdateActivity then some (.update, "activities")
  else if tool = assistantToolDeleteActivity then some (.delete, "activities")
  else if tool = assistantToolCreateLodging then some (.create, "lodgings")
  else if tool = assistantToolUpdateLodging then some (.update, "lodgings")
  else if tool = assistantToolDeleteLodging then some (.delete, "lodgings")
  else if tool = assistantToolCreateTransportation then some (.create, "transportations")
  else if tool = assistantToolUpdateTransportation then some (.update, "transportations")
  else if tool = assistantToolDeleteTransportation then some (.delete, "transportations")
  else none

/-- A collection changed by exactly one mutation of the given kind: one
appended record, one record replaced in place (same id), or one record
removed. -/
inductive SingleMutation : MutKind → List StoredRecord → List StoredRecord → Prop
  | create (l : List StoredRecord) (r : StoredRecord) :
      SingleMutation .create l (l ++ [r])
  | update (pre post : List StoredRecord) (r r' : StoredRecord) :
      r'.id = r.id → SingleMutation .update (pre ++ r :: post) (pre ++ r' :: post)
  | delete (pre post : List StoredRecord) (r : StoredRecord) :
      SingleMutation .delete (pre ++ r :: post) (pre ++ post)

/-- True when no event in the list is a `response.completed`,
`response.error` or `response.function_call_arguments.done` event. -/
def noSignals (events : List ProviderEvent) : Bool :=
  events.all fun e =>
    match e with
    | .completed => false
    | .errorEvent _ => false
    | .argsDone _ => false
    | _ => true

/-- A provider stream that carries at most one terminal signal: no error
events, and nothing after a `completed` that could emit another terminal
client event. -/
def streamOk : List ProviderEvent → Bool
  | [] => true
  | .errorEvent _ :: _ => false
  | .completed :: rest => noSignals rest
  | _ :: rest => streamOk rest

/-- Sample argument map for a `create_activity` proposal. -/
def demoArgs : Args :=
  [("name", .str "Le Petit"), ("address", .str "Main St"),
   ("start_time", .str "2024-06-02T19:00:00")]

/-- Sample pending `create_activity` proposal. -/
def demoProposal : AssistantProposal :=
  { id := "p1", tripId := "trip1", tool := "create_activity", arguments := demoArgs,
    expiresAt := 120, createdAt := 0 }

/-- Sample empty record store. -/
def demoApp : AppState := ⟨[], [], []⟩

/-- Sample server state holding `demoProposal`. -/
def demoSt : ServerState := ⟨[("p1", demoProposal)], demoApp⟩

/-- The activity record `demoProposal` creates when approved. -/
def demoRecord : StoredRecord :=
  ⟨"rec1", [("trip", .str "trip1"), ("name", .str "Le Petit"), ("description", .str ""),
            ("address", .str "Main St"), ("notes", .str ""),
            ("startDate", .str "2024-06-02T19:00:00")]⟩

/-- The confirmation message for approving `demoProposal`. -/
def demoMsg : String := "Added activity \"Le Petit\" on 2024-06-02T19:00:00."

/-- The record store after approving `demoProposal`. -/
def demoApp1 : AppState := ⟨[demoRecord], [], []⟩

/-- Sample pending `update_activity` proposal whose target record does not
exist, so approving it makes the mutation fail. -/
def demoProposalUpd : AssistantProposal :=
  { id := "p2", tripId := "trip1", tool := "update_activity",
    arguments := [("record_id", .str "missing")], expiresAt := 120, createdAt := 0 }

/-- Server state holding `demoProposalUpd`. -/
def demoStUpd : ServerState := ⟨[("p2", demoProposalUpd)], demoApp⟩

/-- Sample proposal that is both expired and owned by trip `tripA`. -/
def demoExpired : AssistantProposal :=
  { id := "p3", tripId := "tripA", tool := "create_activity", arguments := [],
    expiresAt := 10, createdAt := 0 }

/-- Server state holding `demoExpired`. -/
def demoStExp : ServerState := ⟨[("p3", demoExpired)], demoApp⟩

/-- Sample JSON decoder for witnesses: accepts exactly the empty object. -/
def demoDecode : String → Option Args :=
  fun s => if s = "\x7b\x7d" then some [] else none

/-- Provider stream whose `completed` event precedes a complete function
call: the relay answers it with a `done` event and then a `proposal`
event. -/
def demoEvs : List ProviderEvent :=
  [.completed, .outputItemAdded "function_call" "create_activity" "item_1",
   .argsDelta "item_1" "\x7b\x7d", .argsDone "item_1"]

/-- A well behaved provider stream: text, then a single completion. -/
def demoEvsOk : List ProviderEvent :=
  [.textDelta "Here is the plan.", .completed, .doneSignal]

/-- Sample JSON decoder for the round-trip witness: accepts exactly
the object with one numeric field `a`. -/
def demoDecode8 : String → Option Args :=
  fun s => if s = "\x7b\"a\":1\x7d" then some [("a", .num 1)] else none

/-- A fragmentation of the object text, split mid-token. -/
def demoFragments : List String := ["\x7b\"a\"", ":", "1\x7d"]

/-- A buffer mid-accumulation for call item `item_1`. -/
def demoBuffer : FunctionCallBuffer := ⟨true, "create_activity", "item_1", ""⟩

theorem toLowerGo_approve : toLowerGo "approve" = "approve" := by decide

theorem toLowerGo_decline : toLowerGo "decline" = "decline" := by decide

theorem toLowerGo_timeout : toLowerGo "timeout" = "timeout" := by decide

theorem getAssistantProposal_erase (store : PropStore) (i : String) :
    getAssistantProposal (eraseProposal store i) i = none := by
  induction store with
  | nil => rfl
  | cons kv rest ih =>
      obtain ⟨k, p⟩ := kv
      by_cases hk : k = i
      · simp [eraseProposal, hk, ih]
      · simp [eraseProposal, getAssistantProposal, hk, ih]

/-- C5: a decision request for a proposal whose `tripId` differs from the
authenticated request trip is rejected with Forbidden, for every decision
value, with the whole server state (proposal store and record store)
untouched — so before any record-store mutation. -/
theorem claim_C5 (st : ServerState) (now : Nat) (freshId tripId pid d : String)
    (p : AssistantProposal)
    (hpid : pid ≠ "")
    (hp : getAssistantProposal st.proposals pid = some p)
    (hmis : p.tripId ≠ tripId) :
    AssistantProposalDecision st now freshId tripId pid d =
      (.forbidden "proposal does not belong to this trip", st) := by
  simp [AssistantProposalDecision, hpid, hp, hmis]

/-- C5 witness: the sample proposal belongs to `trip1`; deciding it from
`tripB` is Forbidden and changes nothing. -/
theorem claim_C5_witness :
    AssistantProposalDecision demoSt 0 "f" "tripB" "p1" "approve" =
      (.forbidden "proposal does not belong to this trip", demoSt) :=
  claim_C5 demoSt 0 "f" "tripB" "p1" "approve" demoProposal (by decide) rfl (by decide)

/-- C7: a `decline` or `timeout` decision on a valid, unexpired,
trip-matching proposal performs no record-store mutation (the record store
is exactly what it was) and answers with the fixed acknowledgement string
of that branch, consuming the proposal. -/
theorem claim_C7 (st : ServerState) (now : Nat) (freshId tripId pid d : String)
    (p : AssistantProposal)
    (hpid : pid ≠ "")
    (hp : getAssistantProposal st.proposals pid = some p)
    (htrip : p.tripId = tripId)
    (hlive : p.expired now = false)
    (hd : toLowerGo d = "decline" ∨ toLowerGo d = "timeout") :
    (AssistantProposalDecision st now freshId tripId pid d).2.app = st.app ∧
    (toLowerGo d = "decline" →
      AssistantProposalDecision st now freshId tripId pid d =
        (.ok "declined" "Okay, I will skip that change.",
          { st with proposals := eraseProposal st.proposals pid })) ∧
    (toLowerGo d = "timeout" →
      AssistantProposalDecision st now freshId tripId pid d =
        (.ok "timeout" "The request expired. Ask again if you\x27d like me to re-create it.",
          { st with proposals := eraseProposal st.proposals pid })) := by
  rcases hd with hd | hd <;>
    simp [AssistantProposalDecision, hpid, hp, htrip, hlive, hd]

/-- C7 witness: declining the sample pending proposal leaves the record
store unchanged and returns the fixed acknowledgement. -/
theorem claim_C7_witness :
    (AssistantProposalDecision demoSt 0 "f" "trip1" "p1" "decline").2.app = demoSt.app ∧
    AssistantProposalDecision demoSt 0 "f" "trip1" "p1" "decline" =
      (.ok "declined" "Okay, I will skip that change.", ⟨[], demoApp⟩) := by
  have h := claim_C7 demoSt 0 "f" "trip1" "p1" "decline" demoProposal
    (by decide) rfl rfl rfl (Or.inl (by decide))
  exact ⟨h.1, h.2.1 (by decide)⟩

/-- C10: the decision value is matched after lowercasing (so matching is
case-insensitive: two values with the same lowercase form are handled
identically), and any value whose lowercase form is none of
approve/decline/timeout is rejected with Bad Request, leaving the whole
server state — the proposal store entry included — untouched. -/
theorem claim_C10 (st : ServerState) (now : Nat) (freshId tripId pid d d' : String)
    (p : AssistantProposal)
    (hpid : pid ≠ "")
    (hp : getAssistantProposal st.proposals pid = some p)
    (htrip : p.tripId = tripId)
    (hlive : p.expired now = false) :
    (¬(toLowerGo d = "approve" ∨ toLowerGo d = "decline" ∨ toLowerGo d = "timeout") →
      AssistantProposalDecision st now freshId tripId pid d =
        (.badRequest "decision must be approve, decline, or timeout", st)) ∧
    (toLowerGo d' = toLowerGo d →
      AssistantProposalDecision st now freshId tripId pid d' =
        AssistantProposalDecision st now freshId tripId pid d) := by
  constructor
  · intro hinv
    push_neg at hinv
    simp [AssistantProposalDecision, hpid, hp, htrip, hlive, hinv.1, hinv.2.1, hinv.2.2]
  · intro hsame
    simp only [AssistantProposalDecision, hsame]

/-- C10 witness: `"REJECT"` and `"reject"` are handled identically, and
`"reject"` is rejected with Bad Request leaving the state untouched. -/
theorem claim_C10_witness :
    AssistantProposalDecision demoSt 0 "f" "trip1" "p1" "reject" =
      (.badRequest "decision must be approve, decline, or timeout", demoSt) ∧
    AssistantProposalDecision demoSt 0 "f" "trip1" "p1" "REJECT" =
      AssistantProposalDecision demoSt 0 "f" "trip1" "p1" "reject" := by
  have h := claim_C10 demoSt 0 "f" "trip1" "p1" "reject" "REJECT" demoProposal
    (by decide) rfl rfl rfl
  exact ⟨h.1 (by decide), h.2 (by decide)⟩

/-- C2 counterexample: approving `demoStUpd`'s proposal (an
`update_activity` whose target record does not exist) surfaces an internal
error, but the proposal is NOT consumed: the server state is unchanged and
a subsequent decision on the same id succeeds instead of failing. -/
theorem claim_C2_counterexample :
    AssistantProposalDecision demoStUpd 0 "f" "trip1" "p2" "approve" =
      (.internalError "record not found", demoStUpd) ∧
    (AssistantProposalDecision demoStUpd 0 "f" "trip1" "p2" "decline").1 =
      .ok "declined" "Okay, I will skip that change." :=
  ⟨rfl, rfl⟩

/-- C2 (amended): when the mutation of an approved, valid, unexpired,
trip-matching proposal fails, the handler surfaces the error as an
internal error and the proposal is NOT consumed: the whole server state is
unchanged, the proposal stays in the store, and the same id can still be
decided afterwards. -/
theorem claim_C2 (st : ServerState) (now : Nat) (freshId tripId pid e : String)
    (p : AssistantProposal)
    (hpid : pid ≠ "")
    (hp : getAssistantProposal st.proposals pid = some p)
    (htrip : p.tripId = tripId)
    (hlive : p.expired now = false)
    (happly : applyAssistantProposal st.app tripId freshId p = .error e) :
    AssistantProposalDecision st now freshId tripId pid "approve" =
      (.internalError e, st) ∧
    AssistantProposalDecision st now freshId tripId pid "decline" =
      (.ok "declined" "Okay, I will skip that change.",
        { st with proposals := eraseProposal st.proposals pid }) := by
  constructor
  · simp [AssistantProposalDecision, hpid, hp, htrip, hlive, toLowerGo_approve, happly]
  · simp [AssistantProposalDecision, hpid, hp, htrip, hlive, toLowerGo_decline]

/-- C2 (amended) witness: the update-of-a-missing-record proposal. -/
theorem claim_C2_witness :
    AssistantProposalDecision demoStUpd 0 "f" "trip1" "p2" "approve" =
      (.internalError "record not found", demoStUpd) ∧
    AssistantProposalDecision demoStUpd 0 "f" "trip1" "p2" "decline" =
      (.ok "declined" "Okay, I will skip that change.", ⟨[], demoApp⟩) := by
  have h := claim_C2 demoStUpd 0 "f" "trip1" "p2" "record not found" demoProposalUpd
    (by decide) rfl rfl rfl rfl
  exact ⟨h.1, h.2⟩

/-- C6 counterexample: `demoExpired` is past its expiry, yet a decision
submitted from a different trip is answered Forbidden — not Gone — and the
proposal remains in the store. -/
theorem claim_C6_counterexample :
    demoExpired.expired 100 = true ∧
    AssistantProposalDecision demoStExp 100 "f" "tripB" "p3" "approve" =
      (.forbidden "proposal does not belong to this trip", demoStExp) ∧
    getAssistantProposal
      (AssistantProposalDecision demoStExp 100 "f" "tripB" "p3" "approve").2.proposals "p3" =
      some demoExpired :=
  ⟨rfl, rfl, rfl⟩

/-- C6 (amended): for a proposal id that is absent from the store, or
whose stored proposal is expired AND owned by the requesting trip, a
decision of any kind is answered Gone, no record-store mutation happens,
and the store no longer contains the id.  (An expired proposal owned by a
different trip is instead answered Forbidden and stays stored, because the
ownership check runs before the expiry check.) -/
theorem claim_C6 (st : ServerState) (now : Nat) (freshId tripId pid d : String)
    (hpid : pid ≠ "")
    (h : match getAssistantProposal st.proposals pid with
         | none => True
         | some q => q.tripId = tripId ∧ q.expired now = true) :
    (AssistantProposalDecision st now freshId tripId pid d).1.isGone = true ∧
    (AssistantProposalDecision st now freshId tripId pid d).2.app = st.app ∧
    getAssistantProposal
      (AssistantProposalDecision st now freshId tripId pid d).2.proposals pid = none := by
  cases hl : getAssistantProposal st.proposals pid with
  | none =>
      simp [AssistantProposalDecision, hpid, hl, DecisionResponse.isGone]
  | some q =>
      rw [hl] at h
      obtain ⟨htrip, hexp⟩ := h
      simp [AssistantProposalDecision, hpid, hl, htrip, hexp,
        DecisionResponse.isGone, getAssistantProposal_erase]

/-- C6 witness: deciding the expired proposal from its own trip is
answered Gone, mutates nothing, and removes it from the store. -/
theorem claim_C6_witness :
    (AssistantProposalDecision demoStExp 100 "f" "tripA" "p3" "timeout").1.isGone = true ∧
    (AssistantProposalDecision demoStExp 100 "f" "tripA" "p3" "timeout").2.app = demoStExp.app ∧
    getAssistantProposal
      (AssistantProposalDecision demoStExp 100 "f" "tripA" "p3" "timeout").2.proposals "p3" =
      none :=
  claim_C6 demoStExp 100 "f" "tripA" "p3" "timeout" (by decide) (by exact ⟨rfl, rfl⟩)

/-- C9 counterexample: while accumulating for item `item_1`, a delta event
whose item identifier is empty — and therefore does not match the recorded
identifier — is still appended, changing the buffer. -/
theorem claim_C9_counterexample :
    demoBuffer.active = true ∧ ("" : String) ≠ demoBuffer.itemID ∧
    handleArgumentsDelta demoBuffer "" "x" ≠ demoBuffer := by
  decide

/-- C9 (amended): while the buffer is accumulating, a delta event carrying
a DIFFERENT NON-EMPTY item identifier is ignored and leaves the buffer
unchanged, while an event whose identifier is empty or matches the
recorded one appends its (non-empty) delta text to the buffer. -/
theorem claim_C9 (b : FunctionCallBuffer) (itemId delta : String)
    (hactive : b.active = true) :
    (itemId ≠ "" ∧ itemId ≠ b.itemID →
      handleArgumentsDelta b itemId delta = b) ∧
    (itemId = "" ∨ itemId = b.itemID → delta ≠ "" →
      handleArgumentsDelta b itemId delta = { b with builder := b.builder ++ delta }) ∧
    (itemId = "" ∨ itemId = b.itemID → delta = "" →
      handleArgumentsDelta b itemId delta = b) := by
  refine ⟨fun hmis => ?_, fun hmatch hne => ?_, fun hmatch hemp => ?_⟩
  · simp [handleArgumentsDelta, hactive, hmis]
  · rcases hmatch with hm | hm <;> simp [handleArgumentsDelta, hactive, hm, hne]
  · rcases hmatch with hm | hm <;> simp [handleArgumentsDelta, hactive, hm, hemp]

/-- C9 (amended) witness: a mismatched non-empty identifier is ignored and
a matching identifier appends. -/
theorem claim_C9_witness :
    handleArgumentsDelta demoBuffer "item_2" "x" = demoBuffer ∧
    handleArgumentsDelta demoBuffer "item_1" "x" =
      { demoBuffer with builder := demoBuffer.builder ++ "x" } := by
  have h := claim_C9 demoBuffer "item_2" "x" (by decide)
  have h' := claim_C9 demoBuffer "item_1" "x" (by decide)
  exact ⟨h.1 (by decide), h'.2.1 (Or.inr (by decide)) (by decide)⟩

@[simp] theorem setField_id (r : StoredRecord) (k : String) (v : JsonVal) :
    (setField r k v).id = r.id := rfl

@[simp] theorem applyCostUpdate_id (r : StoredRecord) (args : Args) :
    (applyCostUpdate r args).id = r.id := by
  simp only [applyCostUpdate]
  split_ifs <;> rfl

@[simp] theorem updatedActivityRecord_id (r : StoredRecord) (args : Args) :
    (updatedActivityRecord r args).id = r.id := by
  simp only [updatedActivityRecord, applyCostUpdate_id, apply_ite StoredRecord.id,
    setField_id, ite_self]

@[simp] theorem updatedLodgingRecord_id (r : StoredRecord) (args : Args) :
    (updatedLodgingRecord r args).id = r.id := by
  simp only [updatedLodgingRecord, apply_ite StoredRecord.id, setField_id, ite_self]

@[simp] theorem updatedTransportationRecord_id (r : StoredRecord) (args : Args) :
    (updatedTransportationRecord r args).id = r.id := by
  simp only [updatedTransportationRecord, apply_ite StoredRecord.id, setField_id, ite_self]

theorem findById_split (l : List StoredRecord) (i : String) (r : StoredRecord)
    (h : findById l i = some r) :
    ∃ pre post, l = pre ++ r :: post ∧ r.id = i ∧
      removeById l i = pre ++ post ∧
      ∀ x, replaceById l i x = pre ++ x :: post := by
  induction l with
  | nil => simp [findById] at h
  | cons a rest ih =>
      by_cases ha : a.id = i
      · simp only [findById, ha, if_pos, Option.some.injEq] at h
        subst h
        exact ⟨[], rest, rfl, ha, by simp [removeById, ha],
          fun x => by simp [replaceById, ha]⟩
      · simp only [findById, ha, if_neg, if_false] at h
        obtain ⟨pre, post, hl, hid, hrem, hrep⟩ := ih h
        refine ⟨a :: pre, post, by rw [hl]; rfl, hid, ?_, fun x => ?_⟩
        · simp [removeById, ha, hrem]
        · simp [replaceById, ha, hrep x]

theorem ensureTripRecord_ok (app : AppState) (c rid tripId : String) (r : StoredRecord)
    (h : ensureTripRecord app c rid tripId = .ok r) :
    findById (collectionOf app c) rid = some r := by
  unfold ensureTripRecord at h
  split at h
  · exact absurd h (by simp)
  · split at h
    · exact absurd h (by simp)
    · split at h
      · exact absurd h (by simp)
      · rename_i record hfind _
        obtain rfl : record = r := by simpa using h
        exact hfind

theorem saveActivity_shape (app : AppState) (fid trip msg : String) (args : Args)
    (app2 : AppState) (h : saveActivityProposal app fid trip args = .ok (msg, app2)) :
    ∃ r, app2 = { app with activities := app.activities ++ [r] } := by
  simp only [saveActivityProposal, Except.ok.injEq, Prod.mk.injEq] at h
  exact ⟨_, h.2.symm⟩

theorem saveLodging_shape (app : AppState) (fid trip msg : String) (args : Args)
    (app2 : AppState) (h : saveLodgingProposal app fid trip args = .ok (msg, app2)) :
    ∃ r, app2 = { app with lodgings := app.lodgings ++ [r] } := by
  simp only [saveLodgingProposal, Except.ok.injEq, Prod.mk.injEq] at h
  exact ⟨_, h.2.symm⟩

theorem saveTransportation_shape (app : AppState) (fid trip msg : String) (args : Args)
    (app2 : AppState) (h : saveTransportationProposal app fid trip args = .ok (msg, app2)) :
    ∃ r, app2 = { app with transportations := app.transportations ++ [r] } := by
  simp only [saveTransportationProposal, Except.ok.injEq, Prod.mk.injEq] at h
  exact ⟨_, h.2.symm⟩

theorem updateActivity_shape (app : AppState) (trip msg : String) (args : Args)
    (app2 : AppState) (h : updateActivityProposal app trip args = .ok (msg, app2)) :
    ∃ r r', findById app.activities (stringValue (lookupArg args "record_id")) = some r ∧
      r'.id = r.id ∧ app2 = { app with activities := replaceById app.activities r.id r' } := by
  unfold updateActivityProposal at h
  split at h
  · exact absurd h (by simp)
  · rename_i record hens
    have hfind := ensureTripRecord_ok app "activities" _ trip record hens
    simp only [Except.ok.injEq, Prod.mk.injEq] at h
    refine ⟨record, updatedActivityRecord record args, hfind,
      updatedActivityRecord_id record args, ?_⟩
    rw [← h.2, updatedActivityRecord_id]

theorem updateLodging_shape (app : AppState) (trip msg : String) (args : Args)
    (app2 : AppState) (h : updateLodgingProposal app trip args = .ok (msg, app2)) :
    ∃ r r', findById app.lodgings (stringValue (lookupArg args "record_id")) = some r ∧
      r'.id = r.id ∧ app2 = { app with lodgings := replaceById app.lodgings r.id r' } := by
  unfold updateLodgingProposal at h
  split at h
  · exact absurd h (by simp)
  · rename_i record hens
    have hfind := ensureTripRecord_ok app "lodgings" _ trip record hens
    simp only [Except.ok.injEq, Prod.mk.injEq] at h
    refine ⟨record, updatedLodgingRecord record args, hfind,
      updatedLodgingRecord_id record args, ?_⟩
    rw [← h.2, updatedLodgingRecord_id]

theorem updateTransportation_shape (app : AppState) (trip msg : String) (args : Args)
    (app2 : AppState) (h : updateTransportationProposal app trip args = .ok (msg, app2)) :
    ∃ r r', findById app.transportations (stringValue (lookupArg args "record_id")) = some r ∧
      r'.id = r.id ∧
      app2 = { app with transportations := replaceById app.transportations r.id r' } := by
  unfold updateTransportationProposal at h
  split at h
  · exact absurd h (by simp)
  · rename_i record hens
    have hfind := ensureTripRecord_ok app "transportations" _ trip record hens
    simp only [Except.ok.injEq, Prod.mk.injEq] at h
    refine ⟨record, updatedTransportationRecord record args, hfind,
      updatedTransportationRecord_id record args, ?_⟩
    rw [← h.2, updatedTransportationRecord_id]

theorem deleteActivity_shape (app : AppState) (trip msg : String) (args : Args)
    (app2 : AppState) (h : deleteActivityProposal app trip args = .ok (msg, app2)) :
    ∃ r, findById app.activities (stringValue (lookupArg args "record_id")) = some r ∧
      app2 = { app with activities := removeById app.activities r.id } := by
  unfold deleteActivityProposal at h
  split at h
  · exact absurd h (by simp)
  · rename_i record hens
    have hfind := ensureTripRecord_ok app "activities" _ trip record hens
    simp only [Except.ok.injEq, Prod.mk.injEq] at h
    exact ⟨record, hfind, h.2.symm⟩

theorem deleteLodging_shape (app : AppState) (trip msg : String) (args : Args)
    (app2 : AppState) (h : deleteLodgingProposal app trip args = .ok (msg, app2)) :
    ∃ r, findById app.lodgings (stringValue (lookupArg args "record_id")) = some r ∧
      app2 = { app with lodgings := removeById app.lodgings r.id } := by
  unfold deleteLodgingProposal at h
  split at h
  · exact absurd h (by simp)
  · rename_i record hens
    have hfind := ensureTripRecord_ok app "lodgings" _ trip record hens
    simp only [Except.ok.injEq, Prod.mk.injEq] at h
    exact ⟨record, hfind, h.2.symm⟩

theorem deleteTransportation_shape (app : AppState) (trip msg : String) (args : Args)
    (app2 : AppState) (h : deleteTransportationProposal app trip args = .ok (msg, app2)) :
    ∃ r, findById app.transportations (stringValue (lookupArg args "record_id")) = some r ∧
      app2 = { app with transportations := removeById app.transportations r.id } := by
  unfold deleteTransportationProposal at h
  split at h
  · exact absurd h (by simp)
  · rename_i record hens
    have hfind := ensureTripRecord_ok app "transportations" _ trip record hens
    simp only [Except.ok.injEq, Prod.mk.injEq] at h
    exact ⟨record, hfind, h.2.symm⟩

theorem applyAssistantProposal_single (app : AppState) (tripId freshId msg : String)
    (p : AssistantProposal) (app2 : AppState) (k : MutKind) (c : String)
    (hspec : toolSpec p.tool = some (k, c))
    (happly : applyAssistantProposal app tripId freshId p = .ok (msg, app2)) :
    SingleMutation k (collectionOf app c) (collectionOf app2 c) ∧
    (c ≠ "activities" → app2.activities = app.activities) ∧
    (c ≠ "lodgings" → app2.lodgings = app.lodgings) ∧
    (c ≠ "transportations" → app2.transportations = app.transportations) := by
  by_cases h1 : p.tool = assistantToolCreateActivity
  · rw [toolSpec, if_pos h1] at hspec
    obtain ⟨rfl, rfl⟩ : MutKind.create = k ∧ "activities" = c := by simpa using hspec
    rw [applyAssistantProposal, if_pos h1] at happly
    obtain ⟨r, rfl⟩ := saveActivity_shape _ _ _ _ _ _ happly
    exact ⟨SingleMutation.create _ _, fun hne => absurd rfl hne, fun _ => rfl, fun _ => rfl⟩
  rw [applyAssistantProposal, if_neg h1] at happly
  rw [toolSpec, if_neg h1] at hspec
  by_cases h2 : p.tool = assistantToolUpdateActivity
  · rw [if_pos h2] at hspec happly
    obtain ⟨rfl, rfl⟩ : MutKind.update = k ∧ "activities" = c := by simpa using hspec
    obtain ⟨r, r', hfind, hid, rfl⟩ := updateActivity_shape _ _ _ _ _ happly
    obtain ⟨pre, post, hl, hri, _, hrep⟩ := findById_split _ _ _ hfind
    refine ⟨?_, fun hne => absurd rfl hne, fun _ => rfl, fun _ => rfl⟩
    show SingleMutation .update app.activities (replaceById app.activities r.id r')
    rw [hri, hrep r', hl]
    exact SingleMutation.update pre post r r' (hid.trans hri ▸ hid)
  rw [if_neg h2] at hspec happly
  by_cases h3 : p.tool = assistantToolDeleteActivity
  · rw [if_pos h3] at hspec happly
    obtain ⟨rfl, rfl⟩ : MutKind.delete = k ∧ "activities" = c := by simpa using hspec
    obtain ⟨r, hfind, rfl⟩ := deleteActivity_shape _ _ _ _ _ happly
    obtain ⟨pre, post, hl, hri, hrem, _⟩ := findById_split _ _ _ hfind
    refine ⟨?_, fun hne => absurd rfl hne, fun _ => rfl, fun _ => rfl⟩
    show SingleMutation .delete app.activities (removeById app.activities r.id)
    rw [hri, hrem, hl]
    exact SingleMutation.delete pre post r
  rw [if_neg h3] at hspec happly
  by_cases h4 : p.tool = assistantToolCreateLodging
  · rw [if_pos h4] at hspec happly
    obtain ⟨rfl, rfl⟩ : MutKind.create = k ∧ "lodgings" = c := by simpa using hspec
    obtain ⟨r, rfl⟩ := saveLodging_shape _ _ _ _ _ _ happly
    exact ⟨SingleMutation.create _ _, fun _ => rfl, fun hne => absurd rfl hne, fun _ => rfl⟩
  rw [if_neg h4] at hspec happly
  by_cases h5 : p.tool = assistantToolUpdateLodging
  · rw [if_pos h5] at hspec happly
    obtain ⟨rfl, rfl⟩ : MutKind.update = k ∧ "lodgings" = c := by simpa using hspec
    obtain ⟨r, r', hfind, hid, rfl⟩ := updateLodging_shape _ _ _ _ _ happly
    obtain ⟨pre, post, hl, hri, _, hrep⟩ := findById_split _ _ _ hfind
    refine ⟨?_, fun _ => rfl, fun hne => absurd rfl hne, fun _ => rfl⟩
    show SingleMutation .update app.lodgings (replaceById app.lodgings r.id r')
    rw [hri, hrep r', hl]
    exact SingleMutation.update pre post r r' hid
  rw [if_neg h5] at hspec happly
  by_cases h6 : p.tool = assistantToolDeleteLodging
  · rw [if_pos h6] at hspec happly
    obtain ⟨rfl, rfl⟩ : MutKind.delete = k ∧ "lodgings" = c := by simpa using hspec
    obtain ⟨r, hfind, rfl⟩ := deleteLodging_shape _ _ _ _ _ happly
    obtain ⟨pre, post, hl, hri, hrem, _⟩ := findById_split _ _ _ hfind
    refine ⟨?_, fun _ => rfl, fun hne => absurd rfl hne, fun _ => rfl⟩
    show SingleMutation .delete app.lodgings (removeById app.lodgings r.id)
    rw [hri, hrem, hl]
    exact SingleMutation.delete pre post r
  rw [if_neg h6] at hspec happly
  by_cases h7 : p.tool = assistantToolCreateTransportation
  · rw [if_pos h7] at hspec happly
    obtain ⟨rfl, rfl⟩ : MutKind.create = k ∧ "transportations" = c := by simpa using hspec
    obtain ⟨r, rfl⟩ := saveTransportation_shape _ _ _ _ _ _ happly
    exact ⟨SingleMutation.create _ _, fun _ => rfl, fun _ => rfl, fun hne => absurd rfl hne⟩
  rw [if_neg h7] at hspec happly
  by_cases h8 : p.tool = assistantToolUpdateTransportation
  · rw [if_pos h8] at hspec happly
    obtain ⟨rfl, rfl⟩ : MutKind.update = k ∧ "transportations" = c := by simpa using hspec
    obtain ⟨r, r', hfind, hid, rfl⟩ := updateTransportation_shape _ _ _ _ _ happly
    obtain ⟨pre, post, hl, hri, _, hrep⟩ := findById_split _ _ _ hfind
    refine ⟨?_, fun _ => rfl, fun _ => rfl, fun hne => absurd rfl hne⟩
    show SingleMutation .update app.transportations (replaceById app.transportations r.id r')
    rw [hri, hrep r', hl]
    exact SingleMutation.update pre post r r' hid
  rw [if_neg h8] at hspec happly
  by_cases h9 : p.tool = assistantToolDeleteTransportation
  · rw [if_pos h9] at hspec happly
    obtain ⟨rfl, rfl⟩ : MutKind.delete = k ∧ "transportations" = c := by simpa using hspec
    obtain ⟨r, hfind, rfl⟩ := deleteTransportation_shape _ _ _ _ _ happly
    obtain ⟨pre, post, hl, hri, hrem, _⟩ := findById_split _ _ _ hfind
    refine ⟨?_, fun _ => rfl, fun _ => rfl, fun hne => absurd rfl hne⟩
    show SingleMutation .delete app.transportations (removeById app.transportations r.id)
    rw [hri, hrem, hl]
    exact SingleMutation.delete pre post r
  rw [if_neg h9] at hspec
  exact absurd hspec (by simp)

/-- C1: approving a valid (the apply succeeds), unexpired proposal whose
`tripId` matches the request trip answers 200/approved, applies exactly
one mutation of the tool's kind to the collection matching the tool —
leaving the other two collections untouched — and removes the proposal
from the store, so that repeating the same decision request answers
Gone. -/
theorem claim_C1 (st : ServerState) (now : Nat) (freshId tripId pid msg : String)
    (p : AssistantProposal) (app2 : AppState) (k : MutKind) (c : String)
    (hpid : pid ≠ "")
    (hp : getAssistantProposal st.proposals pid = some p)
    (htrip : p.tripId = tripId)
    (hlive : p.expired now = false)
    (hspec : toolSpec p.tool = some (k, c))
    (happly : applyAssistantProposal st.app tripId freshId p = .ok (msg, app2)) :
    AssistantProposalDecision st now freshId tripId pid "approve" =
      (.ok "approved" msg, ⟨eraseProposal st.proposals pid, app2⟩) ∧
    SingleMutation k (collectionOf st.app c) (collectionOf app2 c) ∧
    (c ≠ "activities" → app2.activities = st.app.activities) ∧
    (c ≠ "lodgings" → app2.lodgings = st.app.lodgings) ∧
    (c ≠ "transportations" → app2.transportations = st.app.transportations) ∧
    (AssistantProposalDecision ⟨eraseProposal st.proposals pid, app2⟩
        now freshId tripId pid "approve").1 = .gone "proposal expired" := by
  obtain ⟨hmut, ha, hl, ht⟩ :=
    applyAssistantProposal_single st.app tripId freshId msg p app2 k c hspec happly
  refine ⟨?_, hmut, ha, hl, ht, ?_⟩
  · simp [AssistantProposalDecision, hpid, hp, htrip, hlive, toLowerGo_approve, happly]
  · simp [AssistantProposalDecision, hpid, getAssistantProposal_erase]

/-- C1 witness: approving the sample `create_activity` proposal creates
exactly the expected activity record, removes the proposal, and a repeated
approve on the same id is Gone. -/
theorem claim_C1_witness :
    AssistantProposalDecision demoSt 0 "rec1" "trip1" "p1" "approve" =
      (.ok "approved" demoMsg, ⟨[], demoApp1⟩) ∧
    SingleMutation .create (collectionOf demoApp "activities")
      (collectionOf demoApp1 "activities") ∧
    (AssistantProposalDecision ⟨[], demoApp1⟩ 0 "rec1" "trip1" "p1" "approve").1 =
      .gone "proposal expired" := by
  have h := claim_C1 demoSt 0 "rec1" "trip1" "p1" demoMsg demoProposal demoApp1
    .create "activities" (by decide) rfl rfl rfl rfl rfl
  exact ⟨h.1, h.2.1, h.2.2.2.2.2⟩

theorem lastOnly_cons (e : ClientEvent) (l : List ClientEvent)
    (he : isProposalEvent e = false)
    (h1 : (l.dropLast.all fun x => !(isProposalEvent x)) = true)
    (h2 : (l.countP fun x => isProposalEvent x) ≤ 1) :
    ((e :: l).dropLast.all fun x => !(isProposalEvent x)) = true ∧
    ((e :: l).countP fun x => isProposalEvent x) ≤ 1 := by
  constructor
  · cases l with
    | nil => simp
    | cons a t =>
        simp only [List.dropLast, List.all_cons, he, Bool.not_false, Bool.true_and]
        exact h1
  · simp only [List.countP_cons, he, Bool.false_eq_true, if_false]
    omega

theorem relayGo_lastOnly (decode : String → Option Args) (tripId freshId : String)
    (now : Nat) (evs : List ProviderEvent) :
    ∀ (b : FunctionCallBuffer) (issued completed : Bool) (store : PropStore),
      (((relayGo decode tripId freshId now b issued completed store evs).1.dropLast.all
          fun e => !(isProposalEvent e)) = true) ∧
      ((relayGo decode tripId freshId now b issued completed store evs).1.countP
          fun e => isProposalEvent e) ≤ 1 := by
  induction evs with
  | nil =>
      intro b issued completed store
      simp only [relayGo]
      split <;> simp [isProposalEvent]
  | cons ev rest ih =>
      intro b issued completed store
      cases ev with
      | doneSignal =>
          simp only [relayGo]
          split <;> simp [isProposalEvent]
      | outputItemAdded itemType name id =>
          simpa only [relayGo] using ih _ _ _ _
      | argsDelta itemId delta =>
          simpa only [relayGo] using ih _ _ _ _
      | argsDone itemId =>
          simp only [relayGo]
          by_cases hiss : issued
          · simpa only [hiss, if_true] using ih _ _ _ _
          · simp only [hiss, if_false]
            cases hfin : finalizeProposal decode b itemId tripId freshId now store with
            | some val => simp [isProposalEvent]
            | none => simpa using ih _ _ _ _
      | textDelta text =>
          simp only [relayGo]
          by_cases ht : text = ""
          · simpa only [ht, if_pos] using ih _ _ _ _
          · simp only [ht, if_neg, if_false]
            exact lastOnly_cons _ _ rfl (ih b issued completed store).1
              (ih b issued completed store).2
      | completed =>
          simp only [relayGo]
          exact lastOnly_cons _ _ rfl (ih b issued true store).1 (ih b issued true store).2
      | errorEvent message =>
          simp only [relayGo]
          exact lastOnly_cons _ _ rfl (ih b issued completed store).1
            (ih b issued completed store).2
      | other =>
          simpa only [relayGo] using ih _ _ _ _

/-- C4: in every relayed turn, at most one proposal event is emitted, and
every event other than the last one is a non-proposal event — so once a
proposal event is sent the stream carries no further `delta` or `done`
events (a proposal can only be the final event). -/
theorem claim_C4 (decode : String → Option Args) (tripId freshId : String) (now : Nat)
    (store : PropStore) (evs : List ProviderEvent) :
    (((relayRun decode tripId freshId now store evs).1.dropLast.all
        fun e => !(isProposalEvent e)) = true) ∧
    ((relayRun decode tripId freshId now store evs).1.countP
        fun e => isProposalEvent e) ≤ 1 :=
  relayGo_lastOnly decode tripId freshId now evs emptyBuffer false false store

theorem relayGo_completed_quiet (decode : String → Option Args) (tripId freshId : String)
    (now : Nat) (evs : List ProviderEvent) :
    ∀ (b : FunctionCallBuffer) (issued : Bool) (store : PropStore),
      noSignals evs = true →
      terminalCount (relayGo decode tripId freshId now b issued true store evs).1 = 0 := by
  induction evs with
  | nil =>
      intro b issued store _
      simp [relayGo, terminalCount]
  | cons ev rest ih =>
      intro b issued store hns
      cases ev with
      | doneSignal => simp [relayGo, terminalCount]

      | outputItemAdded itemType name id =>
          simp only [noSignals, List.all_cons, Bool.and_eq_true] at hns
          simpa only [relayGo] using ih _ _ _ hns.2
      | argsDelta itemId delta =>
          simp only [noSignals, List.all_cons, Bool.and_eq_true] at hns
          simpa only [relayGo] using ih _ _ _ hns.2
      | argsDone itemId => simp [noSignals] at hns
      | textDelta text =>
          simp only [noSignals, List.all_cons, Bool.and_eq_true] at hns
          simp only [relayGo]
          by_cases ht : text = ""
          · simpa only [ht, if_pos] using ih _ _ _ hns.2
          · simp only [ht, if_neg, if_false, terminalCount, List.countP_cons,
              isTerminalEvent]
            simpa [terminalCount] using ih b issued store hns.2
      | completed => simp [noSignals] at hns
      | errorEvent message => simp [noSignals] at hns
      | other =>
          simp only [noSignals, List.all_cons, Bool.and_eq_true] at hns
          simpa only [relayGo] using ih _ _ _ hns.2

theorem relayGo_streamOk_one (decode : String → Option Args) (tripId freshId : String)
    (now : Nat) (evs : List ProviderEvent) :
    ∀ (b : FunctionCallBuffer) (store : PropStore),
      streamOk evs = true →
      terminalCount (relayGo decode tripId freshId now b false false store evs).1 = 1 := by
  induction evs with
  | nil =>
      intro b store _
      simp [relayGo, terminalCount, isTerminalEvent]
  | cons ev rest ih =>
      intro b store hok
      cases ev with
      | doneSignal => simp [relayGo, terminalCount, isTerminalEvent]
      | outputItemAdded itemType name id =>
          simp only [streamOk] at hok
          simpa only [relayGo] using ih _ _ hok
      | argsDelta itemId delta =>
          simp only [streamOk] at hok
          simpa only [relayGo] using ih _ _ hok
      | argsDone itemId =>
          simp only [streamOk] at hok
          simp only [relayGo, Bool.false_eq_true, if_false]
          cases hfin : finalizeProposal decode b itemId tripId freshId now store with
          | some val => simp [terminalCount, isTerminalEvent]
          | none => simpa using ih _ _ hok
      | textDelta text =>
          simp only [streamOk] at hok
          simp only [relayGo]
          by_cases ht : text = ""
          · simpa only [ht, if_pos] using ih _ _ hok
          · simp only [ht, if_neg, if_false]
            simpa [terminalCount, isTerminalEvent] using ih b store hok
      | completed =>
          simp only [streamOk] at hok
          simp only [relayGo]
          have h0 := relayGo_completed_quiet decode tripId freshId now rest b false store hok
          simp [terminalCount, List.countP_cons, isTerminalEvent] at h0 ⊢
          exact h0
      | errorEvent message => simp [streamOk] at hok
      | other =>
          simp only [streamOk] at hok
          simpa only [relayGo] using ih _ _ hok

/-- C3 counterexample: on the provider stream `demoEvs` — a `completed`
event followed by a complete function call — the relay sends BOTH a `done`
event and a `proposal` event in the same turn, two terminal events, which
falsifies the claim that exactly one terminal event is sent and never both
a proposal and a done. -/
theorem claim_C3_counterexample :
    ((relayRun demoDecode "trip1" "fresh1" 0 [] demoEvs).1.countP
        fun e => isDoneEvent e) = 1 ∧
    ((relayRun demoDecode "trip1" "fresh1" 0 [] demoEvs).1.countP
        fun e => isProposalEvent e) = 1 ∧
    terminalCount (relayRun demoDecode "trip1" "fresh1" 0 [] demoEvs).1 = 2 := by
  decide

/-- C3 (amended): the relay sends exactly one terminal event per turn
provided the provider stream itself carries at most one terminal signal —
no `response.error` events, and no further `completed` or
function-call-completion events once a `completed` was seen.  Otherwise
several terminal events can be sent: each provider error event is relayed
without ending the stream (a final `done` still follows), each `completed`
emits a `done` without ending the stream, and a function call completed
after a `completed` still emits a proposal. -/
theorem claim_C3 (decode : String → Option Args) (tripId freshId : String) (now : Nat)
    (store : PropStore) (evs : List ProviderEvent)
    (hok : streamOk evs = true) :
    terminalCount (relayRun decode tripId freshId now store evs).1 = 1 :=
  relayGo_streamOk_one decode tripId freshId now evs emptyBuffer store hok

/-- C3 (amended) witness: a well behaved stream — text, one completion —
yields exactly one terminal event. -/
theorem claim_C3_witness :
    terminalCount (relayRun demoDecode "trip1" "fresh1" 0 [] demoEvsOk).1 = 1 :=
  claim_C3 demoDecode "trip1" "fresh1" 0 [] demoEvsOk (by decide)

theorem feedDeltas_builder (iid : String) (fragments : List String) :
    ∀ b : FunctionCallBuffer, b.active = true → (iid = "" ∨ iid = b.itemID) →
      fragments.foldl (fun bb frag => handleArgumentsDelta bb iid frag) b =
        { b with builder := fragments.foldl (fun acc frag => acc ++ frag) b.builder } := by
  induction fragments with
  | nil => intro b _ _; rfl
  | cons f fs ih =>
      intro b hact hmatch
      obtain ⟨ba, bn, bi, bb⟩ := b
      simp only at hact hmatch
      subst hact
      have hcond : ¬(iid ≠ "" ∧ iid ≠ bi) := by
        rcases hmatch with hm | hm <;> simp [hm]
      have hstep : handleArgumentsDelta ⟨true, bn, bi, bb⟩ iid f = ⟨true, bn, bi, bb ++ f⟩ := by
        by_cases hf : f = ""
        · subst hf
          simp [handleArgumentsDelta, hcond, String.append_empty]
        · simp [handleArgumentsDelta, hcond, hf]
      rw [List.foldl_cons, hstep]
      exact ih ⟨true, bn, bi, bb ++ f⟩ rfl hmatch

/-- C8: round-trip over fragmentation.  For any sequence of delta
fragments carrying the matching item identifier, feeding them to an
accumulating Tool Call Buffer and finalizing produces exactly the proposal
whose arguments are the decoding of the whole concatenated text at once
(`decode` is the JSON decoder, assumed insensitive to the surrounding
whitespace the finalizer trims, as Go's `json.Unmarshal` is; the text must
not trim to nothing, which holds for any JSON object text). -/
theorem claim_C8 (decode : String → Option Args) (name iid tripId freshId : String)
    (now : Nat) (store : PropStore) (fragments : List String) (args : Args)
    (hws : decode (trimGo (fragments.foldl (fun acc f => acc ++ f) "")) =
           decode (fragments.foldl (fun acc f => acc ++ f) ""))
    (hwf : decode (fragments.foldl (fun acc f => acc ++ f) "") = some args)
    (htrim : trimGo (fragments.foldl (fun acc f => acc ++ f) "") ≠ "") :
    finalizeProposal decode
      (fragments.foldl (fun bb frag => handleArgumentsDelta bb iid frag)
        (handleOutputItemAdded emptyBuffer "function_call" name iid))
      iid tripId freshId now store =
    some ({ id := freshId, tool := name, arguments := args,
            summary := summarizeProposal name args, expiresAt := now + proposalTTL },
          { active := false, name := name, itemID := "", builder := "" },
          storeAssistantProposal store
            { id := freshId, tripId := tripId, tool := name, arguments := args,
              expiresAt := now + proposalTTL, createdAt := now }) := by
  have hb0 : handleOutputItemAdded emptyBuffer "function_call" name iid =
      ⟨true, name, iid, ""⟩ := rfl
  rw [hb0, feedDeltas_builder iid fragments ⟨true, name, iid, ""⟩ rfl (Or.inr rfl)]
  simp [finalizeProposal, htrim, hws, hwf]

/-- C8 witness: the object text split mid-token into three fragments
decodes to the same one-field mapping as the whole text. -/
theorem claim_C8_witness :
    finalizeProposal demoDecode8
      (demoFragments.foldl (fun bb frag => handleArgumentsDelta bb "item_1" frag)
        (handleOutputItemAdded emptyBuffer "function_call" "create_activity" "item_1"))
      "item_1" "trip1" "f1" 0 [] =
    some ({ id := "f1", tool := "create_activity", arguments := [("a", .num 1)],
            summary := summarizeProposal "create_activity" [("a", .num 1)],
            expiresAt := proposalTTL },
          { active := false, name := "create_activity", itemID := "", builder := "" },
          storeAssistantProposal []
            { id := "f1", tripId := "trip1", tool := "create_activity",
              arguments := [("a", .num 1)], expiresAt := proposalTTL, createdAt := 0 }) :=
  claim_C8 demoDecode8 "create_activity" "item_1" "trip1" "f1" 0 [] demoFragments
    [("a", .num 1)] rfl rfl (by decide)

end Surmai
